import Mathlib

/-!
Verification development for the Mini Milestone Journey Management System.

The repository ships a React frontend (`src/frontend/src/App.jsx` and its
components); the FastAPI backend holding the hierarchy store and the
aggregation engine is described by the design document and the README but its
source is not in the repository.  Definitions taken from frontend source files
cite the file; definitions for the backend are modelled from the spec and say
so in their doc comment.

Rounding policy: the spec leaves the rounding of percentages open ("decide and
document", suggesting round-half-up); the model fixes round-half-up, matching
Mathlib's `round` on `ℚ`.
-/

namespace Milestone

/-- Modelled from the spec: the status model (§3) — the three step states.
The backend enum is not in the repository. -/
inductive Status where
  | notStarted
  | inProgress
  | completed
deriving DecidableEq, Repr

/-- Modelled from the spec: numeric weight of a status (§3):
NOT_STARTED = 0.0, IN_PROGRESS = 0.5, COMPLETED = 1.0. -/
def weight : Status → ℚ
  | .notStarted => 0
  | .inProgress => 1 / 2
  | .completed => 1

/-- Status weight measured in half units (so it is a natural number);
used by the executable aggregation engine. -/
def halfWeight : Status → ℕ
  | .notStarted => 0
  | .inProgress => 1
  | .completed => 2

/-- Round-half-up division of natural numbers: `roundDiv a b = round (a / b)`
for positive `b`. -/
def roundDiv (a b : ℕ) : ℕ :=
  (2 * a + b) / (2 * b)

/-- Modelled from the spec: the aggregation engine (§4.1).  Given the ordered
collection of step statuses it returns 0 for the empty collection and
otherwise round-half-up of `100 × average(weight(status))`, computed exactly
in integer arithmetic on half-unit weights.  The backend function is not in
the repository. -/
def computePct (l : List Status) : ℕ :=
  if l.isEmpty then 0
  else roundDiv (50 * (l.map halfWeight).sum) l.length

/-- The aggregation contract exactly as the spec words it (§4.1): 0 if empty,
otherwise `round(100 × average(weight(status)))` over the rationals.  Kept as
a second definition so that `computePct` can be proved to refine it. -/
def computePctSpec (l : List Status) : ℤ :=
  if l = [] then 0
  else round ((100 : ℚ) * ((l.map weight).sum / l.length))

lemma sum_map_weight (l : List Status) :
    (l.map weight).sum = ((l.map halfWeight).sum : ℚ) / 2 := by
  induction l with
  | nil => simp
  | cons a t ih =>
      cases a <;> simp [weight, halfWeight, ih] <;> push_cast <;> ring

lemma sum_halfWeight_le (l : List Status) :
    (l.map halfWeight).sum ≤ 2 * l.length := by
  induction l with
  | nil => simp
  | cons a t ih =>
      have ha : halfWeight a ≤ 2 := by cases a <;> simp [halfWeight]
      simp only [List.map_cons, List.sum_cons, List.length_cons]
      omega

lemma computePct_le_100 (l : List Status) : computePct l ≤ 100 := by
  by_cases h : l = []
  · simp [computePct, h]
  · have hn : 0 < l.length := List.length_pos.mpr h
    have hW := sum_halfWeight_le l
    have hne : l.isEmpty = false := by
      simpa [List.isEmpty_iff] using h
    have hlt : computePct l < 101 := by
      simp only [computePct, hne, Bool.false_eq_true, if_false, roundDiv]
      rw [Nat.div_lt_iff_lt_mul (by omega)]
      omega
    omega

lemma computePct_eq_spec (l : List Status) :
    (computePct l : ℤ) = computePctSpec l := by
  by_cases h : l = []
  · simp [computePct, computePctSpec, h]
  · have hn : 0 < l.length := List.length_pos.mpr h
    have hne : l.isEmpty = false := by
      simpa [List.isEmpty_iff] using h
    obtain ⟨W, hWdef⟩ : ∃ W, (l.map halfWeight).sum = W := ⟨_, rfl⟩
    obtain ⟨n, hndef⟩ : ∃ n, l.length = n := ⟨_, rfl⟩
    rw [hndef] at hn
    have hnq : (0 : ℚ) < (n : ℚ) := by exact_mod_cast hn
    have hcp : computePct l = (100 * W + n) / (2 * n) := by
      simp only [computePct, hne, Bool.false_eq_true, if_false, roundDiv, hWdef, hndef]
      have h2 : 2 * (50 * W) = 100 * W := by ring
      rw [h2]
    have hspec : computePctSpec l = round (((100 * W + n : ℕ) : ℚ) / ((2 * n : ℕ) : ℚ) - 1 / 2) := by
      simp only [computePctSpec, h, if_false]
      congr 1
      rw [sum_map_weight, hWdef, hndef]
      push_cast
      field_simp
      ring
    rw [hcp, hspec, round_eq]
    have hq : ((100 * W + n : ℕ) : ℚ) / ((2 * n : ℕ) : ℚ) - 1 / 2 + 1 / 2
        = ((100 * W + n : ℕ) : ℚ) / ((2 * n : ℕ) : ℚ) := by ring
    rw [hq]
    symm
    rw [Int.floor_eq_iff]
    have hb : (0 : ℚ) < ((2 * n : ℕ) : ℚ) := by
      push_cast
      positivity
    constructor
    · rw [le_div_iff₀ hb]
      have : (100 * W + n) / (2 * n) * (2 * n) ≤ 100 * W + n :=
        Nat.div_mul_le_self _ _
      exact_mod_cast this
    · rw [div_lt_iff₀ hb]
      have hlt : 100 * W + n < ((100 * W + n) / (2 * n) + 1) * (2 * n) := by
        rw [← Nat.div_lt_iff_lt_mul (by omega)]
        omega
      push_cast
      exact_mod_cast hlt

/-- Claim C1: for every sequence of step statuses the aggregation engine
returns an integer in [0, 100]; it returns 0 on the empty sequence, and
otherwise `round(100 × average(weight(status)))` with weights
NOT_STARTED = 0, IN_PROGRESS = 0.5, COMPLETED = 1 (`computePctSpec` is that
formula verbatim; the result is a `ℕ`, hence ≥ 0). -/
theorem C1_aggregation_contract (l : List Status) :
    (computePct l : ℤ) = computePctSpec l ∧
    computePct l ≤ 100 ∧
    computePct ([] : List Status) = 0 :=
  ⟨computePct_eq_spec l, computePct_le_100 l, rfl⟩

/-- A Step record (§3; README data model: `step_id`, `name`, `status`).
Names are JavaScript strings modelled as character lists. -/
structure Step where
  step_id : String
  name : List Char
  status : Status
deriving DecidableEq, Repr

/-- A Stage record (§3): identifier, name, owned collection of Steps. -/
structure Stage where
  stage_id : String
  name : List Char
  steps : List Step
deriving DecidableEq, Repr

/-- A Journey record (§3): identifier, name, ordered collection of Stages.
Completion percentages are derived, never stored. -/
structure Journey where
  journey_id : String
  name : List Char
  stages : List Stage
deriving DecidableEq, Repr

/-- The ordered statuses of a stage's steps. -/
def stageStatuses (st : Stage) : List Status :=
  st.steps.map Step.status

/-- Modelled from the spec: derived stage completion (§3) — the aggregation
engine applied to the stage's own steps. -/
def stagePct (st : Stage) : ℕ :=
  computePct (stageStatuses st)

/-- All steps of a journey: the union of the steps of all its stages, in
stage order. -/
def journeySteps (j : Journey) : List Step :=
  (j.stages.map Stage.steps).flatten

/-- The ordered statuses of all steps across all stages of a journey. -/
def journeyStatuses (j : Journey) : List Status :=
  (journeySteps j).map Step.status

/-- Modelled from the spec: derived journey completion (§3) — the aggregation
engine applied to every step of every stage. -/
def journeyPct (j : Journey) : ℕ :=
  computePct (journeyStatuses j)

lemma journeyStatuses_eq_flatten (j : Journey) :
    journeyStatuses j = (j.stages.map stageStatuses).flatten := by
  simp only [journeyStatuses, journeySteps, stageStatuses]
  rw [List.map_flatten, List.map_map]
  rfl

/-- Spec §8's worked example, stage A: steps COMPLETED and NOT_STARTED. -/
def exStageA : Stage :=
  ⟨"A", ['A'], [⟨"a1", ['x'], .completed⟩, ⟨"a2", ['y'], .notStarted⟩]⟩

/-- Spec §8's worked example, stage B: one IN_PROGRESS step. -/
def exStageB : Stage :=
  ⟨"B", ['B'], [⟨"b1", ['z'], .inProgress⟩]⟩

/-- Spec §8's worked example journey holding stages A and B. -/
def exJourney : Journey :=
  ⟨"123", ['J'], [exStageA, exStageB]⟩

/-- A journey where the weighted aggregate (33) differs from the equal-weight
average of the stage percentages (50): one COMPLETED step in one stage, two
NOT_STARTED steps in the other. -/
def exJourneyUneven : Journey :=
  ⟨"123", ['J'],
    [⟨"C", ['C'], [⟨"c1", ['x'], .completed⟩]⟩,
     ⟨"D", ['D'], [⟨"d1", ['y'], .notStarted⟩, ⟨"d2", ['z'], .notStarted⟩]⟩]⟩

/-- Claim C2: journey completion is the weighted aggregate over the union of
all steps of all stages (each step once), not an average of stage
percentages.  On the spec's example — stage A = [COMPLETED, NOT_STARTED],
stage B = [IN_PROGRESS] — both stages read 50 and the journey over all three
steps reads 50; on an uneven journey the aggregate (33) differs from the
equal-weight stage average (50). -/
theorem C2_journey_completion_union :
    (∀ j : Journey, journeyPct j = computePct ((j.stages.map stageStatuses).flatten)) ∧
    (stagePct exStageA = 50 ∧ stagePct exStageB = 50 ∧ journeyPct exJourney = 50) ∧
    (journeyPct exJourneyUneven = 33 ∧
      (stagePct ⟨"C", ['C'], [⟨"c1", ['x'], .completed⟩]⟩ +
        stagePct ⟨"D", ['D'], [⟨"d1", ['y'], .notStarted⟩, ⟨"d2", ['z'], .notStarted⟩]⟩) / 2 = 50) := by
  refine ⟨fun j => by rw [journeyPct, journeyStatuses_eq_flatten], ?_, ?_⟩
  · exact ⟨by decide, by decide, by decide⟩
  · exact ⟨by decide, by decide⟩

/-- JavaScript `String.prototype.trim` over a string viewed as its character
list: drop leading whitespace, then drop trailing whitespace.  Used by
`addStage`/`addStep` in `src/frontend/src/App.jsx` (`(name || "").trim()`). -/
def jsTrim (s : List Char) : List Char :=
  ((s.dropWhile Char.isWhitespace).reverse.dropWhile Char.isWhitespace).reverse

lemma dropWhile_head?_not (p : Char → Bool) (l : List Char) (a : Char)
    (h : (l.dropWhile p).head? = some a) : p a = false := by
  induction l with
  | nil => simp at h
  | cons b t ih =>
      rw [List.dropWhile_cons] at h
      cases hb : p b with
      | true =>
          rw [hb] at h
          simp only [if_true] at h
          exact ih h
      | false =>
          rw [hb] at h
          simp only [Bool.false_eq_true, if_false, List.head?_cons, Option.some.injEq] at h
          rw [← h]
          exact hb

lemma dropWhile_eq_self_of_head (p : Char → Bool) (l : List Char)
    (h : ∀ a, l.head? = some a → p a = false) : l.dropWhile p = l := by
  cases l with
  | nil => rfl
  | cons b t =>
      have hb : p b = false := h b rfl
      rw [List.dropWhile_cons, hb]
      simp

lemma dropWhile_idem (p : Char → Bool) (l : List Char) :
    (l.dropWhile p).dropWhile p = l.dropWhile p := by
  refine dropWhile_eq_self_of_head p _ (fun a ha => ?_)
  exact dropWhile_head?_not p l a ha

lemma getLast?_dropWhile (p : Char → Bool) (l : List Char)
    (h : l.dropWhile p ≠ []) : (l.dropWhile p).getLast? = l.getLast? := by
  obtain ⟨t, ht⟩ := List.dropWhile_suffix (l := l) p
  conv_rhs => rw [← ht]
  exact (List.getLast?_append_of_ne_nil t h).symm

lemma jsTrim_idem (s : List Char) : jsTrim (jsTrim s) = jsTrim s := by
  unfold jsTrim
  have h1 : (((s.dropWhile Char.isWhitespace).reverse.dropWhile Char.isWhitespace).reverse).dropWhile Char.isWhitespace
      = ((s.dropWhile Char.isWhitespace).reverse.dropWhile Char.isWhitespace).reverse := by
    refine dropWhile_eq_self_of_head _ _ (fun a ha => ?_)
    rw [List.head?_reverse] at ha
    have hne : (s.dropWhile Char.isWhitespace).reverse.dropWhile Char.isWhitespace ≠ [] := by
      intro hnil
      rw [hnil] at ha
      simp at ha
    rw [getLast?_dropWhile _ _ hne, List.getLast?_reverse] at ha
    exact dropWhile_head?_not _ _ _ ha
  rw [h1, List.reverse_reverse, dropWhile_idem]

/-- Modelled from the spec: outcome of an add/update mutation (§4.2, §7):
the created/updated record on success, `NotFound` for an unknown identifier,
`InvalidInput` for a blank name or unrecognized status. -/
inductive MutRes where
  | ok
  | notFound
  | invalidInput
deriving DecidableEq, Repr

/-- Modelled from the spec: outcome of a delete mutation (§4.2):
`Success` or `NotFound`. -/
inductive DelRes where
  | success
  | notFound
deriving DecidableEq, Repr

/-- Modelled from the spec: the recognized status strings at the external
boundary (§6) are exactly `NOT_STARTED`, `IN_PROGRESS`, `COMPLETED`; any
other string parses to `none` (InvalidInput). -/
def parseStatus (s : String) : Option Status :=
  if s = "NOT_STARTED" then some .notStarted
  else if s = "IN_PROGRESS" then some .inProgress
  else if s = "COMPLETED" then some .completed
  else none

/-- The serialized form of a status, as in the README's JSON examples. -/
def statusToString : Status → String
  | .notStarted => "NOT_STARTED"
  | .inProgress => "IN_PROGRESS"
  | .completed => "COMPLETED"

/-- Whether the store holds a stage with this identifier. -/
def stageExists (j : Journey) (stageId : String) : Bool :=
  j.stages.any fun s => s.stage_id == stageId

/-- Whether the store holds a step with this identifier, in any stage. -/
def stepExists (j : Journey) (stepId : String) : Bool :=
  j.stages.any fun s => s.steps.any fun t => t.step_id == stepId

/-- Modelled from the spec: `addStage(journeyId, name)` (§4.2).  Rejects
blank names with InvalidInput (the frontend checks the blank name before any
request, so it precedes the identifier lookup); unknown journey id is
NotFound; otherwise appends a new empty stage.  Returns the outcome together
with the resulting store; a failed operation leaves the store unchanged. -/
def addStage (j : Journey) (journeyId : String) (name : List Char) (newId : String) :
    MutRes × Journey :=
  if jsTrim name = [] then (.invalidInput, j)
  else if journeyId == j.journey_id then
    (.ok, { j with stages := j.stages ++ [⟨newId, name, []⟩] })
  else (.notFound, j)

/-- Modelled from the spec: `addStep(stageId, name, initialStatus)` (§4.2).
Rejects blank names with InvalidInput (checked by the frontend before any
request); unknown stage id is NotFound; a status string other than the three
recognized values is InvalidInput (per §6 — the spec's alternative of
defaulting to NOT_STARTED is not taken); otherwise appends the step to the
named stage. -/
def addStep (j : Journey) (stageId : String) (name : List Char) (statusStr : String)
    (newId : String) : MutRes × Journey :=
  if jsTrim name = [] then (.invalidInput, j)
  else if stageExists j stageId then
    match parseStatus statusStr with
    | none => (.invalidInput, j)
    | some st =>
        (.ok, { j with stages := j.stages.map fun s =>
          if s.stage_id == stageId then { s with steps := s.steps ++ [⟨newId, name, st⟩] } else s })
  else (.notFound, j)

/-- Modelled from the spec: `deleteStage(stageId)` (§4.2).  Removes the stage
— and, the stage owning its steps, all of its steps with it — or fails with
NotFound for an unknown id. -/
def deleteStage (j : Journey) (stageId : String) : DelRes × Journey :=
  if stageExists j stageId then
    (.success, { j with stages := j.stages.filter fun s => s.stage_id != stageId })
  else (.notFound, j)

/-- Modelled from the spec: `deleteStep(stepId)` (§4.2). -/
def deleteStep (j : Journey) (stepId : String) : DelRes × Journey :=
  if stepExists j stepId then
    (.success, { j with stages := j.stages.map fun s =>
      { s with steps := s.steps.filter fun t => t.step_id != stepId } })
  else (.notFound, j)

/-- Modelled from the spec: `updateStepStatus(stepId, newStatus)` (§4.2).
Unknown step ids fail with NotFound (the identifier lookup precedes body
validation); an unrecognized status string is InvalidInput; otherwise the
step's status is replaced in place. -/
def updateStepStatus (j : Journey) (stepId : String) (statusStr : String) :
    MutRes × Journey :=
  if stepExists j stepId then
    match parseStatus statusStr with
    | none => (.invalidInput, j)
    | some st =>
        (.ok, { j with stages := j.stages.map fun s =>
          { s with steps := s.steps.map fun t =>
            if t.step_id == stepId then { t with status := st } else t } })
  else (.notFound, j)

/-- Claim C3: a name that is empty or all whitespace makes `addStep` (and
likewise `addStage`) return InvalidInput with the store — hence every
derived completion value — unchanged. -/
theorem C3_blank_name_rejected (j : Journey) (name : List Char)
    (h : jsTrim name = []) :
    (∀ stageId statusStr newId, addStep j stageId name statusStr newId = (.invalidInput, j)) ∧
    (∀ journeyId newId, addStage j journeyId name newId = (.invalidInput, j)) := by
  constructor
  · intro stageId statusStr newId
    simp [addStep, h]
  · intro journeyId newId
    simp [addStage, h]

/-- Witness for C3 at the spec's example journey and the blank name made of
two spaces. -/
theorem C3_blank_name_rejected_witness :
    addStep exJourney "A" [' ', ' '] "COMPLETED" "n1" = (.invalidInput, exJourney) ∧
    addStage exJourney "123" [' ', ' '] "S1" = (.invalidInput, exJourney) :=
  ⟨(C3_blank_name_rejected exJourney [' ', ' '] (by decide)).1 "A" "COMPLETED" "n1",
   (C3_blank_name_rejected exJourney [' ', ' '] (by decide)).2 "123" "S1"⟩

/-- Claim C4: an unknown step id makes `updateStepStatus` return NotFound
with the store unchanged; likewise every other operation handed an unknown
identifier (for the add operations, once their name passes the blank check
that precedes any request) fails with NotFound and applies no change. -/
theorem C4_unknown_id_notFound (j : Journey) :
    (∀ stepId statusStr, stepExists j stepId = false →
        updateStepStatus j stepId statusStr = (.notFound, j)) ∧
    (∀ stepId, stepExists j stepId = false →
        deleteStep j stepId = (.notFound, j)) ∧
    (∀ stageId, stageExists j stageId = false →
        deleteStage j stageId = (.notFound, j)) ∧
    (∀ stageId name statusStr newId, stageExists j stageId = false → jsTrim name ≠ [] →
        addStep j stageId name statusStr newId = (.notFound, j)) ∧
    (∀ journeyId name newId, (journeyId == j.journey_id) = false → jsTrim name ≠ [] →
        addStage j journeyId name newId = (.notFound, j)) := by
  refine ⟨fun stepId statusStr h => ?_, fun stepId h => ?_, fun stageId h => ?_,
    fun stageId name statusStr newId h hn => ?_, fun journeyId name newId h hn => ?_⟩
  · simp [updateStepStatus, h]
  · simp [deleteStep, h]
  · simp [deleteStage, h]
  · simp [addStep, h, hn]
  · simp [addStage, h, hn]

/-- Witness for C4 at the spec's example journey and the unknown id
`ghost`. -/
theorem C4_unknown_id_notFound_witness :
    updateStepStatus exJourney "ghost" "COMPLETED" = (.notFound, exJourney) ∧
    deleteStep exJourney "ghost" = (.notFound, exJourney) ∧
    deleteStage exJourney "ghost" = (.notFound, exJourney) ∧
    addStep exJourney "ghost" ['n'] "COMPLETED" "n1" = (.notFound, exJourney) ∧
    addStage exJourney "ghost" ['n'] "S1" = (.notFound, exJourney) :=
  ⟨(C4_unknown_id_notFound exJourney).1 "ghost" "COMPLETED" (by decide),
   (C4_unknown_id_notFound exJourney).2.1 "ghost" (by decide),
   (C4_unknown_id_notFound exJourney).2.2.1 "ghost" (by decide),
   (C4_unknown_id_notFound exJourney).2.2.2.1 "ghost" ['n'] "COMPLETED" "n1" (by decide) (by decide),
   (C4_unknown_id_notFound exJourney).2.2.2.2 "ghost" ['n'] "S1" (by decide) (by decide)⟩

/-- Claim C5: deleting an existing stage removes it together with all of its
steps (no surviving stage carries the deleted id, and the steps list of the
result is the flatten of the surviving stages only), and the journey
completion is the aggregation recomputed over exactly the remaining steps;
an unknown stage id yields NotFound with the store unchanged. -/
theorem C5_deleteStage_cascade (j : Journey) (stageId : String) :
    (stageExists j stageId = true →
        deleteStage j stageId =
          (.success, { j with stages := j.stages.filter fun s => s.stage_id != stageId }) ∧
        (∀ s ∈ (deleteStage j stageId).2.stages, s.stage_id ≠ stageId) ∧
        journeyPct (deleteStage j stageId).2 =
          computePct (((j.stages.filter fun s => s.stage_id != stageId).map stageStatuses).flatten)) ∧
    (stageExists j stageId = false → deleteStage j stageId = (.notFound, j)) := by
  constructor
  · intro h
    have heq : deleteStage j stageId =
        (.success, { j with stages := j.stages.filter fun s => s.stage_id != stageId }) := by
      simp [deleteStage, h]
    refine ⟨heq, ?_, ?_⟩
    · intro s hs
      rw [heq] at hs
      have := List.of_mem_filter hs
      simpa using this
    · rw [heq, journeyPct, journeyStatuses_eq_flatten]
  · intro h
    simp [deleteStage, h]

/-- Witness for C5: deleting stage B of the spec's example journey leaves
only stage A (journey completion recomputes to 50 over A's two steps), and
deleting an unknown stage id is NotFound. -/
theorem C5_deleteStage_cascade_witness :
    deleteStage exJourney "B" = (.success, ⟨"123", ['J'], [exStageA]⟩) ∧
    journeyPct (deleteStage exJourney "B").2 = 50 ∧
    deleteStage exJourney "ghostStage" = (.notFound, exJourney) := by
  have h1 := (C5_deleteStage_cascade exJourney "B").1 (by decide)
  have h2 := (C5_deleteStage_cascade exJourney "ghostStage").2 (by decide)
  refine ⟨?_, ?_, h2⟩
  · rw [h1.1]
    decide
  · rw [h1.2.2]
    decide

/-- Claim C6: the statuses accepted across the external boundary are exactly
the strings NOT_STARTED, IN_PROGRESS, COMPLETED: `parseStatus` succeeds
precisely on those three, any other string makes `updateStepStatus` and
`addStep` (once the preceding id and name checks pass) return InvalidInput,
and every recognized value is accepted. -/
theorem C6_status_boundary :
    (∀ s : String, (parseStatus s).isSome = true ↔
        (s = "NOT_STARTED" ∨ s = "IN_PROGRESS" ∨ s = "COMPLETED")) ∧
    (∀ (j : Journey) (stepId s : String), stepExists j stepId = true → parseStatus s = none →
        updateStepStatus j stepId s = (.invalidInput, j)) ∧
    (∀ (j : Journey) (stepId s : String), stepExists j stepId = true →
        (parseStatus s).isSome = true → (updateStepStatus j stepId s).1 = .ok) ∧
    (∀ (j : Journey) (stageId : String) (name : List Char) (s newId : String),
        jsTrim name ≠ [] → stageExists j stageId = true → parseStatus s = none →
        addStep j stageId name s newId = (.invalidInput, j)) ∧
    (∀ (j : Journey) (stageId : String) (name : List Char) (s newId : String),
        jsTrim name ≠ [] → stageExists j stageId = true → (parseStatus s).isSome = true →
        (addStep j stageId name s newId).1 = .ok) := by
  refine ⟨?_, ?_, ?_, ?_, ?_⟩
  · intro s
    unfold parseStatus
    split_ifs with h1 h2 h3 <;> simp_all
  · intro j stepId s hex hpn
    simp [updateStepStatus, hex, hpn]
  · intro j stepId s hex hps
    obtain ⟨st, hst⟩ := Option.isSome_iff_exists.mp hps
    simp [updateStepStatus, hex, hst]
  · intro j stageId name s newId hn hex hpn
    simp [addStep, hn, hex, hpn]
  · intro j stageId name s newId hn hex hps
    obtain ⟨st, hst⟩ := Option.isSome_iff_exists.mp hps
    simp [addStep, hn, hex, hst]

/-- Witness for C6 at the spec's example journey: the string `DONE` is
rejected as InvalidInput by both operations, and `COMPLETED` is accepted by
both. -/
theorem C6_status_boundary_witness :
    updateStepStatus exJourney "a1" "DONE" = (.invalidInput, exJourney) ∧
    (updateStepStatus exJourney "a1" "COMPLETED").1 = .ok ∧
    addStep exJourney "A" ['n'] "DONE" "n1" = (.invalidInput, exJourney) ∧
    (addStep exJourney "A" ['n'] "COMPLETED" "n1").1 = .ok :=
  ⟨C6_status_boundary.2.1 exJourney "a1" "DONE" (by decide) (by decide),
   C6_status_boundary.2.2.1 exJourney "a1" "COMPLETED" (by decide) (by decide),
   C6_status_boundary.2.2.2.1 exJourney "A" ['n'] "DONE" "n1" (by decide) (by decide) (by decide),
   C6_status_boundary.2.2.2.2 exJourney "A" ['n'] "COMPLETED" "n1" (by decide) (by decide) (by decide)⟩

lemma parseStatus_statusToString (v : Status) : parseStatus (statusToString v) = some v := by
  cases v <;> decide

lemma map_eq_self_of {α : Type} (f : α → α) (l : List α) (h : ∀ x ∈ l, f x = x) :
    l.map f = l := by
  induction l with
  | nil => rfl
  | cons a t ih =>
      simp only [List.map_cons]
      rw [h a (by simp), ih (fun x hx => h x (by simp [hx]))]

/-- Claim C7: updating a step to the status it already has is a no-op — the
operation succeeds and returns the store unchanged, so its stage's and the
journey's completion values are unchanged.  (The hypothesis quantifies over
every step carrying the id, which also covers a store with duplicated
ids.) -/
theorem C7_idempotent_update (j : Journey) (stepId : String) (v : Status)
    (hex : stepExists j stepId = true)
    (hcur : ∀ s ∈ j.stages, ∀ t ∈ s.steps, t.step_id = stepId → t.status = v) :
    updateStepStatus j stepId (statusToString v) = (.ok, j) ∧
    (updateStepStatus j stepId (statusToString v)).2.stages.map stagePct =
      j.stages.map stagePct ∧
    journeyPct (updateStepStatus j stepId (statusToString v)).2 = journeyPct j := by
  have hmain : updateStepStatus j stepId (statusToString v) = (.ok, j) := by
    simp only [updateStepStatus, hex, if_true, parseStatus_statusToString]
    have hstages : (j.stages.map fun s =>
        { s with steps := s.steps.map fun t =>
          if t.step_id == stepId then { t with status := v } else t }) = j.stages := by
      refine map_eq_self_of _ _ (fun s hs => ?_)
      have hsteps : (s.steps.map fun t =>
          if t.step_id == stepId then { t with status := v } else t) = s.steps := by
        refine map_eq_self_of _ _ (fun t ht => ?_)
        by_cases hid : t.step_id = stepId
        · have hv : t.status = v := hcur s hs t ht hid
          cases t
          simp_all
        · simp [hid]
      cases s
      simp_all
    rw [hstages]
  exact ⟨hmain, by rw [hmain], by rw [hmain]⟩

/-- Witness for C7: re-asserting COMPLETED on step `a1` of the spec's
example journey returns the store unchanged. -/
theorem C7_idempotent_update_witness :
    updateStepStatus exJourney "a1" "COMPLETED" = (.ok, exJourney) :=
  (C7_idempotent_update exJourney "a1" .completed (by decide) (by decide)).1

/-- The name guard shared by `addStage` (src/frontend/src/App.jsx:164) and
`addStep` (src/frontend/src/App.jsx:186):
`const name = (input || "").trim(); if (!name) return alert(...)` —
`none` models the early return (nothing sent), `some n` the name actually
submitted in the request body.  A missing input (JS `undefined`/`null`, and
likewise the falsy empty string) is replaced by the empty string before
trimming. -/
def clientSubmitName (input : Option (List Char)) : Option (List Char) :=
  let name := jsTrim (input.getD [])
  if name = [] then none else some name

/-- Claim C8: whenever the frontend accepts a name, what it submits is the
input with leading and trailing whitespace removed, and that submitted name
carries no surrounding whitespace (trimming it again changes nothing); a
name that trims to empty is never submitted. -/
theorem C8_submitted_names_trimmed (input : Option (List Char)) :
    (∀ n, clientSubmitName input = some n →
        n = jsTrim (input.getD []) ∧ jsTrim n = n) ∧
    (jsTrim (input.getD []) = [] → clientSubmitName input = none) := by
  constructor
  · intro n hn
    simp only [clientSubmitName] at hn
    by_cases h : jsTrim (input.getD []) = []
    · simp [h] at hn
    · simp only [h, if_false] at hn
      obtain rfl : jsTrim (input.getD []) = n := by simpa using hn
      exact ⟨rfl, jsTrim_idem _⟩
  · intro h
    simp [clientSubmitName, h]

/-- Witness for C8: the input `" a "` is submitted as `"a"` (already free of
surrounding whitespace), and the all-blank input `"  "` is rejected. -/
theorem C8_submitted_names_trimmed_witness :
    (['a'] = jsTrim ((some [' ', 'a', ' '] : Option (List Char)).getD []) ∧
      jsTrim ['a'] = ['a']) ∧
    clientSubmitName (some [' ', ' ']) = none :=
  ⟨(C8_submitted_names_trimmed (some [' ', 'a', ' '])).1 ['a'] (by decide),
   (C8_submitted_names_trimmed (some [' ', ' '])).2 (by decide)⟩

/-- From src/frontend/src/App.jsx:102-120 (`fetchJourney`): after the fetched
journey arrives, `stillExists = data.stages?.some(s => s.stage_id ===
selectedStageId)`; when the previous selection is gone and the stage list is
non-empty, the first stage is selected, otherwise the selection is kept. -/
def fetchSelect (prev : Option String) (stages : List Stage) : Option String :=
  if stages.any fun s => prev == some s.stage_id then prev
  else
    match stages with
    | [] => prev
    | s :: _ => some s.stage_id

/-- From src/frontend/src/App.jsx:61 (`deleteStage`): `if (selectedStageId
=== stageId) setSelectedStageId(null)` — the selection is cleared exactly
when the deleted stage was the selected one. -/
def deleteStageSelect (prev : Option String) (deleted : String) : Option String :=
  if prev == some deleted then none else prev

/-- Claim C9: after a successful fetch of a journey with at least one stage,
the selection names a stage present in that journey: the previous selection
is kept exactly when it still names a stage of the fetched journey, and when
it no longer exists the FIRST stage in the journey's ordered stage list is
selected; `deleteStage` clears the selection precisely when the deleted
stage was selected. -/
theorem C9_selection_valid (prev : Option String) (stages : List Stage) :
    ((stages.any fun s => prev == some s.stage_id) = true → fetchSelect prev stages = prev) ∧
    ((stages.any fun s => prev == some s.stage_id) = false →
        ∀ s t, stages = s :: t → fetchSelect prev stages = some s.stage_id) ∧
    (stages ≠ [] → ∃ s ∈ stages, fetchSelect prev stages = some s.stage_id) ∧
    (∀ sid, deleteStageSelect (some sid) sid = none) ∧
    (∀ p sid, p ≠ some sid → deleteStageSelect p sid = p) := by
  refine ⟨?_, ?_, ?_, ?_, ?_⟩
  · intro h
    simp only [fetchSelect, if_pos h]
  · intro h s t hst
    subst hst
    simp only [fetchSelect, h, Bool.false_eq_true, if_false]
  · intro hne
    by_cases h : stages.any fun s => prev == some s.stage_id
    · obtain ⟨s, hs, hps⟩ := List.any_eq_true.mp h
      refine ⟨s, hs, ?_⟩
      simp only [fetchSelect, if_pos h]
      exact eq_of_beq hps
    · cases stages with
      | nil => exact absurd rfl hne
      | cons s t =>
          refine ⟨s, by simp, ?_⟩
          simp only [fetchSelect, if_neg h]
  · intro sid
    simp [deleteStageSelect]
  · intro p sid hp
    have : (p == some sid) = false := by
      simpa using hp
    simp [deleteStageSelect, this]

/-- Witness for C9 on the spec's example journey (stages A then B): a stale
selection `gone` is replaced by the FIRST stage A, a surviving selection B is
kept, deleting the selected stage clears the selection, and deleting an
unselected one keeps it. -/
theorem C9_selection_valid_witness :
    fetchSelect (some "gone") exJourney.stages = some "A" ∧
    fetchSelect (some "B") exJourney.stages = some "B" ∧
    deleteStageSelect (some "A") "A" = none ∧
    deleteStageSelect (some "B") "A" = some "B" :=
  ⟨(C9_selection_valid (some "gone") exJourney.stages).2.1 (by decide)
      exStageA [exStageB] (by decide),
   (C9_selection_valid (some "B") exJourney.stages).1 (by decide),
   (C9_selection_valid (some "gone") exJourney.stages).2.2.2.1 "A",
   (C9_selection_valid (some "gone") exJourney.stages).2.2.2.2 (some "B") "A" (by decide)⟩

/-- From src/frontend/src/components/StatusTag.jsx:3-13: the CSS class chosen
for a status string — `tag completed` for COMPLETED, `tag progress` for
IN_PROGRESS, `tag notstarted` for anything else. -/
def statusTagClass (status : String) : String :=
  if status = "COMPLETED" then "tag completed"
  else if status = "IN_PROGRESS" then "tag progress"
  else "tag notstarted"

/-- From src/frontend/src/components/StatusTag.jsx:12: the rendered text of
the tag is the status string itself. -/
def statusTagText (status : String) : String :=
  status

/-- Claim C10: StatusTag is total over arbitrary status strings: the
completed style appears iff the status is COMPLETED, the progress style iff
it is IN_PROGRESS, the notstarted style for exactly every other value, and
the status text is rendered as-is. -/
theorem C10_statusTag_total (s : String) :
    (statusTagClass s = "tag completed" ↔ s = "COMPLETED") ∧
    (statusTagClass s = "tag progress" ↔ s = "IN_PROGRESS") ∧
    (statusTagClass s = "tag notstarted" ↔ (s ≠ "COMPLETED" ∧ s ≠ "IN_PROGRESS")) ∧
    statusTagText s = s := by
  unfold statusTagClass statusTagText
  split_ifs with h1 h2 <;> simp_all

end Milestone
